import Mathlib

/-!
Shallow embedding of the dormant-account analysis pipeline
(src/lib/unitClient.ts and src/lib/dormancyService.ts) and proofs of the
specified properties.

Timestamps are modelled as integers (milliseconds since epoch, UTC).
Network calls are modelled by oracle functions passed as parameters; a
call that can throw is modelled with Except.
-/

namespace AccountChecker

/-- Account lifecycle status, from the upstream type
`status: 'Open' | 'Frozen' | 'Closed'` in src/types/unit.ts. -/
inductive AccountStatus where
  | Open : AccountStatus
  | Frozen : AccountStatus
  | Closed : AccountStatus
deriving DecidableEq

/-- The fields of a UnitAccount that the pipeline reads
(src/types/unit.ts, flattened: `attributes.createdAt` is parsed to a
millisecond timestamp, `relationships.customer.data.id` is `customerId`). -/
structure UnitAccount where
  id : String
  createdAt : Int
  balance : Int
  status : AccountStatus
  customerId : String
deriving DecidableEq

/-- The single field of a UnitTransaction that the pipeline reads:
`attributes.createdAt`, parsed to a millisecond timestamp. -/
structure UnitTransaction where
  createdAt : Int
deriving DecidableEq

/-- Customer full name (src/types/unit.ts `fullName`). -/
structure FullName where
  first : String
  last : String
deriving DecidableEq

/-- Customer address (src/types/unit.ts `address`); `street2` is optional. -/
structure CustomerAddress where
  street : String
  street2 : Option String
  city : String
  state : String
  postalCode : String
deriving DecidableEq

/-- The fields of a UnitCustomer that the pipeline reads (attributes
flattened; `email` and `address` are optional). -/
structure UnitCustomer where
  fullName : FullName
  email : Option String
  address : Option CustomerAddress
deriving DecidableEq

/-- AccountActivity, the central derived record (src/types/unit.ts).
`companyId` is `number | string` in the source; it is modelled as a
string, which is faithful for everything the pipeline does with it
(store and compare). -/
structure AccountActivity where
  accountId : String
  customerId : String
  customerName : String
  customerEmail : Option String
  customerAddress : Option String
  companyName : Option String
  companyId : Option String
  accountCreated : Int
  lastActivity : Option Int
  hasActivity : Bool
  daysSinceLastActivity : Int
  daysSinceCreation : Int
  balance : Int
  status : AccountStatus
deriving DecidableEq

/-- Milliseconds in one day. -/
def dayMs : Int := 86400000

/-- Models date-fns differenceInDays under UTC with no DST: the number of
full day periods between the two timestamps, fractional days truncated
toward zero. This is what src/lib/unitClient.ts calls. -/
def differenceInDays (a b : Int) : Int := (a - b).tdiv dayMs

/-- Modelled from the spec: the "calendar-day difference" the spec claims
for `daysSinceCreation` and `daysSinceLastActivity` — the difference of
the UTC day numbers of the two timestamps (what date-fns calls
differenceInCalendarDays). The source code does not call this; it is
defined only to compare the spec with the source. -/
def differenceInCalendarDays (a b : Int) : Int := a.fdiv dayMs - b.fdiv dayMs

/-- Outcome of one raw transaction-list request, as seen by the catch
blocks of getAccountTransactions. -/
inductive TxFetchOutcome where
  | success : List UnitTransaction → TxFetchOutcome
  | httpStatus : Nat → TxFetchOutcome
  | unknownError : TxFetchOutcome
deriving DecidableEq

/-- getAccountTransactions (src/lib/unitClient.ts lines 136-167): on
success returns the fetched page; a 404 returns the empty list (no
transactions is legitimate); a 403 logs and returns the empty list; every
other error status, and any non-HTTP error, is logged and the function
also returns the empty list. No error escapes this function. -/
def getAccountTransactions (api : String → TxFetchOutcome) (accountId : String) :
    List UnitTransaction :=
  match api accountId with
  | .success txs => txs
  | .httpStatus s =>
      if s = 404 then []
      else if s = 403 then []
      else []
  | .unknownError => []

/-- Outcome of one raw customer request, as seen by the catch block of
getCustomer. `timeout` is the ECONNABORTED case. -/
inductive CustomerFetchOutcome where
  | success : UnitCustomer → CustomerFetchOutcome
  | httpStatus : Nat → CustomerFetchOutcome
  | timeout : CustomerFetchOutcome
  | unknownError : CustomerFetchOutcome
deriving DecidableEq

/-- getCustomer (src/lib/unitClient.ts lines 169-201): 404 and 403 return
null (no failure); 429, any other error status, a timeout, and any
unknown error throw, to trigger the circuit breaker in the caller. -/
def getCustomer (api : String → CustomerFetchOutcome) (customerId : String) :
    Except String (Option UnitCustomer) :=
  match api customerId with
  | .success c => .ok (some c)
  | .httpStatus s =>
      if s = 404 then .ok none
      else if s = 403 then .ok none
      else if s = 429 then .error ("Customer API rate limit exceeded for " ++ customerId)
      else .error ("Customer API " ++ toString s ++ " error for " ++ customerId)
  | .timeout => .error ("Customer API timeout for " ++ customerId)
  | .unknownError => .error ("Unexpected customer API error for " ++ customerId)

/-- The body of the per-account loop of getAllAccountsWithActivity
(src/lib/unitClient.ts lines 246-305): resolve one account to an
AccountActivity record using at most one (the most recent) transaction. -/
def mkAccountActivity (now : Int) (txApi : String → TxFetchOutcome)
    (account : UnitAccount) : AccountActivity :=
  let transactions := getAccountTransactions txApi account.id
  let accountCreated := account.createdAt
  let hasActivity : Bool := decide (0 < transactions.length)
  let lastActivity : Option Int :=
    match transactions with
    | t :: _ => some t.createdAt
    | [] => none
  let daysSinceLastActivity : Int :=
    match transactions with
    | t :: _ => differenceInDays now t.createdAt
    | [] => 0
  { accountId := account.id
    customerId := account.customerId
    customerName := "Account " ++ account.id
    customerEmail := none
    customerAddress := none
    companyName := none
    companyId := none
    accountCreated := accountCreated
    lastActivity := lastActivity
    hasActivity := hasActivity
    daysSinceLastActivity := daysSinceLastActivity
    daysSinceCreation := differenceInDays now accountCreated
    balance := account.balance
    status := account.status }

/-- getAllAccountsWithActivity (src/lib/unitClient.ts lines 240-310),
given the already-fetched account list: every account yields exactly one
record, because getAccountTransactions absorbs every fetch error and
nothing else in the loop body can throw, so the try/catch around the body
never skips an account. -/
def getAllAccountsWithActivity (now : Int) (txApi : String → TxFetchOutcome)
    (accounts : List UnitAccount) : List AccountActivity :=
  accounts.map (mkAccountActivity now txApi)

/-- The dormancy classification loop of getDormantAccounts
(src/lib/unitClient.ts lines 482-507), translated account by account;
the two components are communicationNeeded and closureNeeded in push
order. -/
def classifyAccounts : List AccountActivity → List AccountActivity × List AccountActivity
  | [] => ([], [])
  | account :: rest =>
    let r := classifyAccounts rest
    if account.status = AccountStatus.Closed ∨ account.status = AccountStatus.Frozen then
      r
    else if account.hasActivity then
      if 365 ≤ account.daysSinceLastActivity then (r.1, account :: r.2)
      else if 270 ≤ account.daysSinceLastActivity then (account :: r.1, r.2)
      else r
    else
      if 120 ≤ account.daysSinceCreation then (r.1, account :: r.2)
      else r

/-- Helper predicate: the exact condition under which the classification
loop pushes an account onto communicationNeeded. -/
def commCond (a : AccountActivity) : Bool :=
  if a.status = AccountStatus.Closed ∨ a.status = AccountStatus.Frozen then false
  else if a.hasActivity then
    if 365 ≤ a.daysSinceLastActivity then false
    else if 270 ≤ a.daysSinceLastActivity then true
    else false
  else false

/-- Helper predicate: the exact condition under which the classification
loop pushes an account onto closureNeeded. -/
def closCond (a : AccountActivity) : Bool :=
  if a.status = AccountStatus.Closed ∨ a.status = AccountStatus.Frozen then false
  else if a.hasActivity then
    if 365 ≤ a.daysSinceLastActivity then true else false
  else
    if 120 ≤ a.daysSinceCreation then true else false

/-- The address-to-company lookup interface of AddressMappingService
(src/lib/addressMappingService.ts): both lookups return null when no
strategy matches. The layered matching strategies are abstracted into
the two functions, which is all the enrichment loop observes. -/
structure Mapping where
  getCompanyName : String → Option String
  getCompanyId : String → Option String

/-- JavaScript `x || undefined` on an optional string: the empty string
is falsy and collapses to undefined. -/
def jsOrUndefined (o : Option String) : Option String :=
  match o with
  | some s => if s = "" then none else some s
  | none => none

/-- formatCustomerAddress (src/lib/unitClient.ts lines 203-238): join the
non-empty street parts, falling back to the full address; undefined when
the customer has no address or all parts are empty. -/
def formatCustomerAddress (c : UnitCustomer) : Option String :=
  match c.address with
  | none => none
  | some addr =>
    let streetParts := ([some addr.street, addr.street2].filterMap id).filter (fun s => s ≠ "")
    let streetAddress : Option String :=
      if 0 < streetParts.length then some (String.intercalate " " streetParts) else none
    let fullParts :=
      ([some addr.street, addr.street2, some addr.city, some addr.state,
        some addr.postalCode].filterMap id).filter (fun s => s ≠ "")
    let fullAddress : Option String :=
      if 0 < fullParts.length then some (String.intercalate " " fullParts) else none
    match streetAddress with
    | some s => if s = "" then fullAddress else some s
    | none => fullAddress

/-- The successful-customer branch of the enrichment loop body
(src/lib/unitClient.ts lines 359-393): overwrite name and email, set the
formatted address, and, when an address is present, overwrite the
company fields from the mapping (a missed lookup stores undefined). -/
def applyCustomer (m : Mapping) (c : UnitCustomer) (a : AccountActivity) : AccountActivity :=
  let a1 := { a with
    customerName := (c.fullName.first ++ " " ++ c.fullName.last).trim
    customerEmail := c.email }
  let addr := formatCustomerAddress c
  let a2 := { a1 with customerAddress := addr }
  match addr with
  | some s =>
      if s = "" then a2
      else { a2 with
        companyName := jsOrUndefined (m.getCompanyName s)
        companyId := jsOrUndefined (m.getCompanyId s) }
  | none => a2

/-- The mutable state of the enrichment loop: the customerApiFailures
counter and the enhancementEnabled flag. -/
structure EnhSt where
  failures : Nat
  enabled : Bool
deriving DecidableEq

/-- MAX_FAILURES (src/lib/unitClient.ts line 339). -/
def MAX_FAILURES : Nat := 25

/-- One iteration of the enrichment loop (src/lib/unitClient.ts lines
342-407): if enhancement is still enabled and the failure budget is not
spent, look the customer up; a returned customer enriches the record, a
null customer (404 or 403) leaves it untouched, and a thrown error
increments the failure counter, disabling enhancement once the budget is
reached. The record is pushed in every case. -/
def enhanceStep (m : Mapping) (getC : String → CustomerFetchOutcome)
    (st : EnhSt) (a : AccountActivity) : EnhSt × AccountActivity :=
  if st.enabled = true ∧ st.failures < MAX_FAILURES then
    match getCustomer getC a.customerId with
    | .ok (some c) => (st, applyCustomer m c a)
    | .ok none => (st, a)
    | .error _ =>
        let f := st.failures + 1
        ({ failures := f, enabled := if MAX_FAILURES ≤ f then false else st.enabled }, a)
  else (st, a)

/-- The enrichment loop over the whole batch, threading the circuit
breaker state and emitting one output record per input record. -/
def enhanceLoop (m : Mapping) (getC : String → CustomerFetchOutcome) :
    EnhSt → List AccountActivity → EnhSt × List AccountActivity
  | st, [] => (st, [])
  | st, a :: rest =>
    let r1 := enhanceStep m getC st a
    let r2 := enhanceLoop m getC r1.1 rest
    (r2.1, r1.2 :: r2.2)

/-- enhanceAccountsWithAddressMapping (src/lib/unitClient.ts lines
317-421). The mapping load is a parameter: `.error` is the branch where
loadMappings threw and the original accounts are returned unchanged. -/
def enhanceAccountsWithAddressMapping (load : Except String Mapping)
    (getC : String → CustomerFetchOutcome) (accounts : List AccountActivity) :
    List AccountActivity :=
  if accounts.length = 0 then accounts
  else
    match load with
    | .error _ => accounts
    | .ok m => (enhanceLoop m getC ⟨0, true⟩ accounts).2

/-- getDormantAccounts (src/lib/unitClient.ts lines 423-511) from the
Phase 1 output onward: Phase 2 runs under a timeout race, and when it
rejects or times out (`phase2Ok = false`) the core accounts are used
unchanged; the classification loop then produces the two sets. -/
def getDormantAccounts (core : List AccountActivity) (load : Except String Mapping)
    (getC : String → CustomerFetchOutcome) (phase2Ok : Bool) :
    List AccountActivity × List AccountActivity :=
  let allAccounts :=
    if phase2Ok then enhanceAccountsWithAddressMapping load getC core else core
  classifyAccounts allAccounts

/-- The while loop of getAccounts (src/lib/unitClient.ts lines 75-134).
`fetch` returns the page at a given offset. The loop pushes the whole
page, stops if the page is short (fewer items than `limit`), otherwise
advances the offset, and independently stops (with a logged warning)
once the accumulated total strictly exceeds 50000. The second component
of the result records every requested offset in order. The loop is
written with explicit fuel; `getAccountsLoop_total` below proves the
fuel given by getAccounts is never exhausted when the page size is
positive. -/
def getAccountsLoop (fetch : Nat → List UnitAccount) (limit : Nat) :
    Nat → Nat → List UnitAccount → Option (List UnitAccount × List Nat)
  | 0, _, _ => none
  | fuel + 1, currentOffset, allAccounts =>
    let accounts := fetch currentOffset
    let acc2 := allAccounts ++ accounts
    if accounts.length < limit then some (acc2, [currentOffset])
    else if 50000 < acc2.length then some (acc2, [currentOffset])
    else
      match getAccountsLoop fetch limit fuel (currentOffset + limit) acc2 with
      | none => none
      | some (res, offs) => some (res, currentOffset :: offs)

/-- getAccounts (src/lib/unitClient.ts lines 75-134) with its default
arguments `limit = 100, offset = 0` exposed as parameters. -/
def getAccounts (fetch : Nat → List UnitAccount) (limit : Nat) (offset : Nat) :
    Option (List UnitAccount × List Nat) :=
  getAccountsLoop fetch limit 50001 offset []

/-- Alert type tags (src/types/unit.ts DormancyAlert). -/
inductive AlertType where
  | communication_needed : AlertType
  | closure_needed : AlertType
deriving DecidableEq

/-- DormancyAlert (src/types/unit.ts). -/
structure DormancyAlert where
  tag : AlertType
  accounts : List AccountActivity
  alertReason : String

/-- The result object of checkDormantAccounts
(src/lib/dormancyService.ts lines 30-35). -/
structure CheckResult where
  success : Bool
  message : String
  communicationNeeded : Nat
  closureNeeded : Nat
deriving DecidableEq

/-- isWeekday (src/lib/dormancyService.ts lines 15-19): day numbers run
0 = Sunday through 6 = Saturday and weekdays are 1 through 5. -/
def isWeekday (dayOfWeek : Nat) : Bool :=
  decide (1 ≤ dayOfWeek ∧ dayOfWeek ≤ 5)

/-- checkDormantAccounts (src/lib/dormancyService.ts lines 30-107).
`dayOfWeek` and `dayName` stand for the current date; `dormant` is the
outcome of getDormantAccounts (an `.error` is a throw); `sendAlert` is
the Slack delivery, whose throw is also caught. The surrounding
try/catch converts any throw into a returned failure result; the
function itself never throws. -/
def checkDormantAccounts (isManual : Bool) (dayOfWeek : Nat) (dayName : String)
    (dormant : Except String (List AccountActivity × List AccountActivity))
    (sendAlert : DormancyAlert → Except String Unit) : CheckResult :=
  if isManual = false ∧ isWeekday dayOfWeek = false then
    { success := true
      message := "Skipping automated dormancy check - today is " ++ dayName ++ " (weekend)"
      communicationNeeded := 0
      closureNeeded := 0 }
  else
    let body : Except String (List AccountActivity × List AccountActivity) := do
      let sets ← dormant
      let communicationNeeded := sets.1
      let closureNeeded := sets.2
      if 0 < communicationNeeded.length then
        sendAlert
          { tag := .communication_needed
            accounts := communicationNeeded
            alertReason := "9 months of inactivity - communication attempt required" }
      if 0 < closureNeeded.length then
        sendAlert
          { tag := .closure_needed
            accounts := closureNeeded
            alertReason :=
              if closureNeeded.any (fun acc => acc.hasActivity) then
                "12 months of inactivity or 120 days with no activity - closure required"
              else
                "120 days with no activity - closure required" }
      pure (communicationNeeded, closureNeeded)
    match body with
    | .ok sets =>
        { success := true
          message := "Check completed successfully. Found " ++ toString sets.1.length ++
            " accounts needing communication, " ++ toString sets.2.length ++ " needing closure."
          communicationNeeded := sets.1.length
          closureNeeded := sets.2.length }
    | .error errorMessage =>
        { success := false
          message := "Check failed: " ++ errorMessage
          communicationNeeded := 0
          closureNeeded := 0 }

/-- The nine classification-relevant (non-enrichment) fields of two
AccountActivity records agree. -/
def coreEq (x y : AccountActivity) : Prop :=
  x.accountId = y.accountId ∧ x.customerId = y.customerId ∧
  x.accountCreated = y.accountCreated ∧ x.lastActivity = y.lastActivity ∧
  x.hasActivity = y.hasActivity ∧
  x.daysSinceLastActivity = y.daysSinceLastActivity ∧
  x.daysSinceCreation = y.daysSinceCreation ∧
  x.balance = y.balance ∧ x.status = y.status

/-- Circuit-breaker state invariant: a spent failure budget forces the
enabled flag off. -/
def stOk (st : EnhSt) : Prop := MAX_FAILURES ≤ st.failures → st.enabled = false

/-- Concrete sample: an open account whose last activity is exactly 365
days old. -/
def wAct365 : AccountActivity :=
  { accountId := "a1", customerId := "c1", customerName := "Account a1"
    customerEmail := none, customerAddress := none, companyName := none
    companyId := none, accountCreated := 0, lastActivity := some 0
    hasActivity := true, daysSinceLastActivity := 365, daysSinceCreation := 400
    balance := 0, status := AccountStatus.Open }

/-- Concrete sample: a closed, 500-day-old account with no activity. -/
def wClosed : AccountActivity :=
  { accountId := "a2", customerId := "c2", customerName := "Account a2"
    customerEmail := none, customerAddress := none, companyName := none
    companyId := none, accountCreated := 0, lastActivity := none
    hasActivity := false, daysSinceLastActivity := 0, daysSinceCreation := 500
    balance := 0, status := AccountStatus.Closed }

/-- Concrete sample upstream account. -/
def uAcc1 : UnitAccount :=
  { id := "u1", createdAt := 0, balance := 10
    status := AccountStatus.Open, customerId := "c1" }

/-- A second concrete sample upstream account. -/
def uAcc2 : UnitAccount :=
  { id := "u2", createdAt := 0, balance := 20
    status := AccountStatus.Open, customerId := "c2" }

/-- Transaction oracle answering 404 for every account. -/
def txApi404 : String → TxFetchOutcome := fun _ => .httpStatus 404

/-- Transaction oracle: rate-limited (429) for account u1, one
transaction half a day old for everyone else. -/
def txApiMix : String → TxFetchOutcome :=
  fun i => if i = "u1" then .httpStatus 429 else .success [⟨43200000⟩]

/-- Page oracle returning 50001 identical accounts at every offset. -/
def fetchBig : Nat → List UnitAccount := fun _ => List.replicate 50001 uAcc1

/-- Page oracle with no accounts at all. -/
def fetchEmpty : Nat → List UnitAccount := fun _ => []

/-- Concrete sample account created one hour before a UTC midnight. -/
def uLate : UnitAccount :=
  { id := "u3", createdAt := 82800000, balance := 0
    status := AccountStatus.Open, customerId := "c3" }

/-- Transaction oracle with no transactions for anyone. -/
def txApiNone : String → TxFetchOutcome := fun _ => .success []

/-- Transaction oracle with one transaction exactly one day old. -/
def txApiOne : String → TxFetchOutcome := fun _ => .success [⟨86400000⟩]

/-- An always-empty company mapping. -/
def mEmpty : Mapping := { getCompanyName := fun _ => none, getCompanyId := fun _ => none }

/-- Concrete sample customer with a name, an email and no address. -/
def custAB : UnitCustomer :=
  { fullName := { first := "A", last := "B" }, email := some "a@b.co", address := none }

/-- Customer oracle: permission error (403) for customer bad403, server
error (500) for customer bad500, a real customer for everyone else. -/
def cApi8 : String → CustomerFetchOutcome :=
  fun cid =>
    if cid = "bad403" then .httpStatus 403
    else if cid = "bad500" then .httpStatus 500
    else .success custAB

/-- Concrete account record whose customer lookup hits a 403. -/
def aPerm : AccountActivity := { wAct365 with accountId := "p1", customerId := "bad403" }

/-- Concrete account record whose customer lookup hits a 500. -/
def aFail : AccountActivity := { wAct365 with accountId := "f1", customerId := "bad500" }

/-- Concrete account record whose customer lookup succeeds. -/
def aGood : AccountActivity :=
  { wAct365 with accountId := "g1", customerId := "good", customerName := "Account g1" }

/-- Slack delivery oracle that always succeeds. -/
def sendOk : DormancyAlert → Except String Unit := fun _ => .ok ()

theorem classifyAccounts_eq_filter (l : List AccountActivity) :
    classifyAccounts l = (l.filter commCond, l.filter closCond) := by
  induction l with
  | nil => rfl
  | cons a rest ih =>
    simp only [classifyAccounts, ih, List.filter_cons, commCond, closCond]
    split_ifs <;> simp_all

theorem coreEq_refl (a : AccountActivity) : coreEq a a := by
  simp [coreEq]

theorem applyCustomer_coreEq (m : Mapping) (c : UnitCustomer) (a : AccountActivity) :
    coreEq a (applyCustomer m c a) := by
  simp only [applyCustomer, coreEq]
  split
  · split <;> simp_all
  · simp_all

theorem enhanceStep_coreEq (m : Mapping) (getC : String → CustomerFetchOutcome)
    (st : EnhSt) (a : AccountActivity) : coreEq a (enhanceStep m getC st a).2 := by
  simp only [enhanceStep]
  split
  · split
    · exact applyCustomer_coreEq _ _ _
    · exact coreEq_refl a
    · exact coreEq_refl a
  · exact coreEq_refl a

theorem enhanceLoop_forall₂ (m : Mapping) (getC : String → CustomerFetchOutcome)
    (l : List AccountActivity) :
    ∀ st, List.Forall₂ coreEq l (enhanceLoop m getC st l).2 := by
  induction l with
  | nil => intro st; simp [enhanceLoop]
  | cons a rest ih =>
    intro st
    simp only [enhanceLoop]
    exact List.Forall₂.cons (enhanceStep_coreEq m getC st a) (ih _)

theorem enhance_forall₂ (load : Except String Mapping)
    (getC : String → CustomerFetchOutcome) (accounts : List AccountActivity) :
    List.Forall₂ coreEq accounts (enhanceAccountsWithAddressMapping load getC accounts) := by
  simp only [enhanceAccountsWithAddressMapping]
  split
  · exact List.forall₂_same.2 (fun a _ => coreEq_refl a)
  · match load with
    | .error e => exact List.forall₂_same.2 (fun a _ => coreEq_refl a)
    | .ok m => exact enhanceLoop_forall₂ m getC accounts ⟨0, true⟩

theorem commCond_congr {x y : AccountActivity} (h : coreEq x y) :
    commCond x = commCond y := by
  obtain ⟨-, -, -, -, h5, h6, -, -, h9⟩ := h
  simp [commCond, h5, h6, h9]

theorem closCond_congr {x y : AccountActivity} (h : coreEq x y) :
    closCond x = closCond y := by
  obtain ⟨-, -, -, -, h5, h6, h7, -, h9⟩ := h
  simp [closCond, h5, h6, h7, h9]

theorem filter_map_forall₂ {p q : AccountActivity → Bool}
    {f g : AccountActivity → String}
    (hpq : ∀ a b, coreEq a b → p a = q b)
    (hfg : ∀ a b, coreEq a b → f a = g b) :
    ∀ {l₁ l₂ : List AccountActivity}, List.Forall₂ coreEq l₁ l₂ →
      (l₁.filter p).map f = (l₂.filter q).map g := by
  intro l₁ l₂ h
  induction h with
  | nil => rfl
  | @cons a b tl₁ tl₂ hab _ ih =>
    simp only [List.filter_cons]
    rw [hpq a b hab]
    by_cases hq : q b = true
    · simp [hq, List.map_cons, hfg a b hab, ih]
    · simp [hq, ih]

theorem mem_classify_comm (l : List AccountActivity) (a : AccountActivity) :
    a ∈ (classifyAccounts l).1 ↔ a ∈ l ∧ commCond a = true := by
  rw [classifyAccounts_eq_filter]
  exact List.mem_filter

theorem mem_classify_clos (l : List AccountActivity) (a : AccountActivity) :
    a ∈ (classifyAccounts l).2 ↔ a ∈ l ∧ closCond a = true := by
  rw [classifyAccounts_eq_filter]
  exact List.mem_filter

theorem getAccountsLoop_total (fetch : Nat → List UnitAccount) (limit : Nat)
    (hl : 1 ≤ limit) :
    ∀ fuel offset acc, acc.length ≤ 50000 → 50001 ≤ fuel + acc.length →
      (getAccountsLoop fetch limit fuel offset acc).isSome = true := by
  intro fuel
  induction fuel with
  | zero => intro offset acc h1 h2; omega
  | succ n ih =>
    intro offset acc h1 h2
    simp only [getAccountsLoop]
    by_cases hshort : (fetch offset).length < limit
    · simp [hshort]
    · rw [if_neg hshort]
      by_cases hcap : 50000 < (acc ++ fetch offset).length
      · have hcap2 : 50000 < acc.length + (fetch offset).length := by
          simpa using hcap
        simp [hcap2]
      · rw [if_neg hcap]
        have hlen : (acc ++ fetch offset).length = acc.length + (fetch offset).length :=
          List.length_append acc (fetch offset)
        have h3 : (acc ++ fetch offset).length ≤ 50000 := by omega
        have h4 : 50001 ≤ n + (acc ++ fetch offset).length := by omega
        have := ih (offset + limit) (acc ++ fetch offset) h3 h4
        cases hr : getAccountsLoop fetch limit n (offset + limit) (acc ++ fetch offset) with
        | none => rw [hr] at this; simp at this
        | some p =>
          obtain ⟨res, offs⟩ := p
          simp [hr]

theorem getAccountsLoop_offs_ne_nil (fetch : Nat → List UnitAccount) (limit : Nat) :
    ∀ fuel offset acc res offs,
      getAccountsLoop fetch limit fuel offset acc = some (res, offs) → offs ≠ [] := by
  intro fuel
  induction fuel with
  | zero => intro offset acc res offs h; simp [getAccountsLoop] at h
  | succ n ih =>
    intro offset acc res offs h
    simp only [getAccountsLoop] at h
    by_cases hshort : (fetch offset).length < limit
    · rw [if_pos hshort] at h
      simp only [Option.some.injEq, Prod.mk.injEq] at h
      obtain ⟨-, h2⟩ := h
      subst h2
      simp
    · rw [if_neg hshort] at h
      by_cases hcap : 50000 < (acc ++ fetch offset).length
      · rw [if_pos hcap] at h
        simp only [Option.some.injEq, Prod.mk.injEq] at h
        obtain ⟨-, h2⟩ := h
        subst h2
        simp
      · rw [if_neg hcap] at h
        cases hr : getAccountsLoop fetch limit n (offset + limit) (acc ++ fetch offset) with
        | none => rw [hr] at h; simp at h
        | some p =>
          obtain ⟨res0, offs0⟩ := p
          rw [hr] at h
          simp only [Option.some.injEq, Prod.mk.injEq] at h
          obtain ⟨-, h2⟩ := h
          subst h2
          simp

theorem getAccountsLoop_fullpages (fetch : Nat → List UnitAccount) (limit : Nat) :
    ∀ fuel offset acc res offs,
      getAccountsLoop fetch limit fuel offset acc = some (res, offs) →
      ∀ o ∈ offs.dropLast, limit ≤ (fetch o).length := by
  intro fuel
  induction fuel with
  | zero => intro offset acc res offs h; simp [getAccountsLoop] at h
  | succ n ih =>
    intro offset acc res offs h
    simp only [getAccountsLoop] at h
    by_cases hshort : (fetch offset).length < limit
    · rw [if_pos hshort] at h
      simp only [Option.some.injEq, Prod.mk.injEq] at h
      obtain ⟨-, h2⟩ := h
      subst h2
      simp
    · rw [if_neg hshort] at h
      by_cases hcap : 50000 < (acc ++ fetch offset).length
      · rw [if_pos hcap] at h
        simp only [Option.some.injEq, Prod.mk.injEq] at h
        obtain ⟨-, h2⟩ := h
        subst h2
        simp
      · rw [if_neg hcap] at h
        cases hr : getAccountsLoop fetch limit n (offset + limit) (acc ++ fetch offset) with
        | none => rw [hr] at h; simp at h
        | some p =>
          obtain ⟨res0, offs0⟩ := p
          rw [hr] at h
          simp only [Option.some.injEq, Prod.mk.injEq] at h
          obtain ⟨-, h2⟩ := h
          subst h2
          have hne : offs0 ≠ [] := getAccountsLoop_offs_ne_nil fetch limit n _ _ _ _ hr
          intro o ho
          rw [List.dropLast_cons_of_ne_nil hne] at ho
          rcases List.mem_cons.1 ho with rfl | ho2
          · omega
          · exact ih _ _ _ _ hr o ho2

theorem getAccountsLoop_bound (fetch : Nat → List UnitAccount) (limit : Nat)
    (hF : ∀ o, (fetch o).length ≤ limit) :
    ∀ fuel offset acc res offs, acc.length ≤ 50000 →
      getAccountsLoop fetch limit fuel offset acc = some (res, offs) →
      res.length ≤ 50000 + limit := by
  intro fuel
  induction fuel with
  | zero => intro offset acc res offs h1 h; simp [getAccountsLoop] at h
  | succ n ih =>
    intro offset acc res offs h1 h
    simp only [getAccountsLoop] at h
    have hlen : (acc ++ fetch offset).length = acc.length + (fetch offset).length :=
      List.length_append acc (fetch offset)
    by_cases hshort : (fetch offset).length < limit
    · rw [if_pos hshort] at h
      simp only [Option.some.injEq, Prod.mk.injEq] at h
      obtain ⟨h2, -⟩ := h
      subst h2
      have := hF offset
      omega
    · rw [if_neg hshort] at h
      by_cases hcap : 50000 < (acc ++ fetch offset).length
      · rw [if_pos hcap] at h
        simp only [Option.some.injEq, Prod.mk.injEq] at h
        obtain ⟨h2, -⟩ := h
        subst h2
        have := hF offset
        omega
      · rw [if_neg hcap] at h
        cases hr : getAccountsLoop fetch limit n (offset + limit) (acc ++ fetch offset) with
        | none => rw [hr] at h; simp at h
        | some p =>
          obtain ⟨res0, offs0⟩ := p
          rw [hr] at h
          simp only [Option.some.injEq, Prod.mk.injEq] at h
          obtain ⟨h2, -⟩ := h
          subst h2
          exact ih _ _ _ _ (by omega) hr

theorem enhanceLoop_length (m : Mapping) (getC : String → CustomerFetchOutcome)
    (l : List AccountActivity) :
    ∀ st, ((enhanceLoop m getC st l).2).length = l.length := by
  induction l with
  | nil => intro st; simp [enhanceLoop]
  | cons a rest ih => intro st; simp [enhanceLoop, ih]

theorem enhanceLoop_disabled (m : Mapping) (getC : String → CustomerFetchOutcome)
    (l : List AccountActivity) :
    ∀ st, st.enabled = false → enhanceLoop m getC st l = (st, l) := by
  induction l with
  | nil => intro st _; simp [enhanceLoop]
  | cons a rest ih =>
    intro st hst
    have hstep : enhanceStep m getC st a = (st, a) := by
      simp [enhanceStep, hst]
    simp [enhanceLoop, hstep, ih st hst]

theorem enhanceLoop_append (m : Mapping) (getC : String → CustomerFetchOutcome)
    (l₁ l₂ : List AccountActivity) :
    ∀ st, enhanceLoop m getC st (l₁ ++ l₂) =
      ((enhanceLoop m getC (enhanceLoop m getC st l₁).1 l₂).1,
        (enhanceLoop m getC st l₁).2 ++ (enhanceLoop m getC (enhanceLoop m getC st l₁).1 l₂).2) := by
  induction l₁ with
  | nil => intro st; simp [enhanceLoop]
  | cons a rest ih => intro st; simp [enhanceLoop, ih]

theorem enhanceStep_stOk (m : Mapping) (getC : String → CustomerFetchOutcome)
    (st : EnhSt) (a : AccountActivity) (h : stOk st) :
    stOk (enhanceStep m getC st a).1 := by
  simp only [enhanceStep]
  split
  · split
    · exact h
    · exact h
    · intro hf
      simp only at hf ⊢
      rw [if_pos hf]
  · exact h

theorem enhanceLoop_stOk (m : Mapping) (getC : String → CustomerFetchOutcome)
    (l : List AccountActivity) :
    ∀ st, stOk st → stOk (enhanceLoop m getC st l).1 := by
  induction l with
  | nil => intro st h; simpa [enhanceLoop] using h
  | cons a rest ih =>
    intro st h
    simp only [enhanceLoop]
    exact ih _ (enhanceStep_stOk m getC st a h)

theorem enhanceStep_null (m : Mapping) (getC : String → CustomerFetchOutcome)
    (st : EnhSt) (a : AccountActivity)
    (h : getCustomer getC a.customerId = .ok none) :
    enhanceStep m getC st a = (st, a) := by
  simp only [enhanceStep, h]
  split <;> rfl

theorem enhanceStep_failure (m : Mapping) (getC : String → CustomerFetchOutcome)
    (st : EnhSt) (a : AccountActivity) (e : String)
    (hen : st.enabled = true) (hf : st.failures < MAX_FAILURES)
    (h : getCustomer getC a.customerId = .error e) :
    (enhanceStep m getC st a).1.failures = st.failures + 1 ∧
      (enhanceStep m getC st a).2 = a := by
  simp [enhanceStep, hen, hf, h]

theorem commCond_iff (a : AccountActivity)
    (hc : a.status ≠ AccountStatus.Closed) (hf : a.status ≠ AccountStatus.Frozen) :
    commCond a = true ↔
      a.hasActivity = true ∧ 270 ≤ a.daysSinceLastActivity ∧
        a.daysSinceLastActivity < 365 := by
  have hne : ¬(a.status = AccountStatus.Closed ∨ a.status = AccountStatus.Frozen) := by
    tauto
  simp only [commCond, if_neg hne]
  cases hA : a.hasActivity with
  | false => simp
  | true => simp only [if_true]; split_ifs with h1 h2 <;> (simp; omega)

theorem closCond_iff (a : AccountActivity)
    (hc : a.status ≠ AccountStatus.Closed) (hf : a.status ≠ AccountStatus.Frozen) :
    closCond a = true ↔
      (a.hasActivity = true ∧ 365 ≤ a.daysSinceLastActivity) ∨
        (a.hasActivity = false ∧ 120 ≤ a.daysSinceCreation) := by
  have hne : ¬(a.status = AccountStatus.Closed ∨ a.status = AccountStatus.Frozen) := by
    tauto
  simp only [closCond, if_neg hne]
  cases hA : a.hasActivity with
  | false => simp only [Bool.false_eq_true, if_false]; split_ifs with h1 <;> simp [h1]
  | true => simp only [if_true]; split_ifs with h1 <;> simp [h1]

theorem commCond_not_closCond (a : AccountActivity) (h : commCond a = true) :
    closCond a = false := by
  simp only [commCond] at h
  simp only [closCond]
  split_ifs at h ⊢
  all_goals simp_all

theorem ineligible_not_flagged (a : AccountActivity)
    (h : a.status = AccountStatus.Closed ∨ a.status = AccountStatus.Frozen) :
    commCond a = false ∧ closCond a = false := by
  simp [commCond, closCond, h]

/-- C1: an eligible account record (status neither Closed nor Frozen) is
placed in closureNeeded exactly when it has activity at least 365 days
old or has no activity and is at least 120 days old; it is placed in
communicationNeeded exactly when it has activity between 270 and 364
days old; so boundaries are inclusive, closure wins at 365, never-active
accounts never reach communicationNeeded, and the two output lists are
disjoint for every input. -/
theorem claim_C1_classifier_placement (accs : List AccountActivity)
    (a : AccountActivity) (ha : a ∈ accs)
    (hc : a.status ≠ AccountStatus.Closed) (hf : a.status ≠ AccountStatus.Frozen) :
    (a ∈ (classifyAccounts accs).2 ↔
      (a.hasActivity = true ∧ 365 ≤ a.daysSinceLastActivity) ∨
        (a.hasActivity = false ∧ 120 ≤ a.daysSinceCreation)) ∧
    (a ∈ (classifyAccounts accs).1 ↔
      a.hasActivity = true ∧ 270 ≤ a.daysSinceLastActivity ∧
        a.daysSinceLastActivity < 365) ∧
    (∀ b ∈ (classifyAccounts accs).1, b ∉ (classifyAccounts accs).2) := by
  refine ⟨?_, ?_, ?_⟩
  · rw [mem_classify_clos, closCond_iff a hc hf]
    exact ⟨fun h => h.2, fun h => ⟨ha, h⟩⟩
  · rw [mem_classify_comm, commCond_iff a hc hf]
    exact ⟨fun h => h.2, fun h => ⟨ha, h⟩⟩
  · intro b hb hb2
    rw [mem_classify_comm] at hb
    rw [mem_classify_clos] at hb2
    have := commCond_not_closCond b hb.2
    rw [hb2.2] at this
    exact absurd this (by simp)

/-- Witness for C1 at a concrete input: a single open account with
activity exactly 365 days old lands in closureNeeded and not in
communicationNeeded. -/
theorem claim_C1_witness :
    (wAct365 ∈ [wAct365] ∧ wAct365.status ≠ AccountStatus.Closed ∧
      wAct365.status ≠ AccountStatus.Frozen) ∧
    ((wAct365 ∈ (classifyAccounts [wAct365]).2 ↔
      (wAct365.hasActivity = true ∧ 365 ≤ wAct365.daysSinceLastActivity) ∨
        (wAct365.hasActivity = false ∧ 120 ≤ wAct365.daysSinceCreation)) ∧
    (wAct365 ∈ (classifyAccounts [wAct365]).1 ↔
      wAct365.hasActivity = true ∧ 270 ≤ wAct365.daysSinceLastActivity ∧
        wAct365.daysSinceLastActivity < 365) ∧
    (∀ b ∈ (classifyAccounts [wAct365]).1, b ∉ (classifyAccounts [wAct365]).2)) :=
  ⟨⟨by decide, by decide, by decide⟩,
    claim_C1_classifier_placement [wAct365] wAct365 (by decide) (by decide) (by decide)⟩

/-- C2: a record with status Closed or Frozen is never placed in either
output list, whatever its activity flags and day counts are. -/
theorem claim_C2_closed_frozen_excluded (accs : List AccountActivity)
    (a : AccountActivity)
    (h : a.status = AccountStatus.Closed ∨ a.status = AccountStatus.Frozen) :
    a ∉ (classifyAccounts accs).1 ∧ a ∉ (classifyAccounts accs).2 := by
  obtain ⟨h1, h2⟩ := ineligible_not_flagged a h
  constructor
  · intro hm
    rw [mem_classify_comm] at hm
    rw [h1] at hm
    exact Bool.false_ne_true hm.2
  · intro hm
    rw [mem_classify_clos] at hm
    rw [h2] at hm
    exact Bool.false_ne_true hm.2

/-- Witness for C2 at a concrete input: a closed, 500-day-old,
never-active account is in neither output list. -/
theorem claim_C2_witness :
    (wClosed.status = AccountStatus.Closed ∨ wClosed.status = AccountStatus.Frozen) ∧
    (wClosed ∉ (classifyAccounts [wClosed]).1 ∧ wClosed ∉ (classifyAccounts [wClosed]).2) :=
  ⟨by decide, claim_C2_closed_frozen_excluded [wClosed] wClosed (by decide)⟩

/-- C3: whether Phase 2 enrichment runs to completion (phase2Ok = true)
or fails or times out (phase2Ok = false, the pipeline then continuing
with the unenriched core records), the accountId sequences of both
classifier output sets are identical; this holds for every mapping-load
outcome, every customer oracle and every core list. -/
theorem claim_C3_enrichment_failure_neutral (core : List AccountActivity)
    (load : Except String Mapping) (getC : String → CustomerFetchOutcome) :
    getDormantAccounts core load getC false = classifyAccounts core ∧
    (getDormantAccounts core load getC true).1.map (fun a => a.accountId) =
      (getDormantAccounts core load getC false).1.map (fun a => a.accountId) ∧
    (getDormantAccounts core load getC true).2.map (fun a => a.accountId) =
      (getDormantAccounts core load getC false).2.map (fun a => a.accountId) := by
  have hF := enhance_forall₂ load getC core
  have hid : ∀ a b : AccountActivity, coreEq a b → a.accountId = b.accountId :=
    fun a b h => h.1
  refine ⟨rfl, ?_, ?_⟩
  · simp only [getDormantAccounts, if_true, if_false]
    rw [classifyAccounts_eq_filter, classifyAccounts_eq_filter]
    exact (filter_map_forall₂ (fun a b h => commCond_congr h) hid hF).symm
  · simp only [getDormantAccounts, if_true, if_false]
    rw [classifyAccounts_eq_filter, classifyAccounts_eq_filter]
    exact (filter_map_forall₂ (fun a b h => closCond_congr h) hid hF).symm

/-- C4: an account whose most-recent-transaction lookup yields a 404
produces a record with hasActivity = false, and the account is still
included in the resolver output (which keeps one record per account). -/
theorem claim_C4_notfound_is_inactive (now : Int) (txApi : String → TxFetchOutcome)
    (accounts : List UnitAccount) (a : UnitAccount) (ha : a ∈ accounts)
    (h404 : txApi a.id = .httpStatus 404) :
    (mkAccountActivity now txApi a).hasActivity = false ∧
    mkAccountActivity now txApi a ∈ getAllAccountsWithActivity now txApi accounts ∧
    (getAllAccountsWithActivity now txApi accounts).length = accounts.length := by
  refine ⟨?_, ?_, ?_⟩
  · simp [mkAccountActivity, getAccountTransactions, h404]
  · exact List.mem_map_of_mem _ ha
  · exact List.length_map accounts _

/-- Witness for C4 at a concrete input: one account, 404 on its
transaction lookup, yields one record with hasActivity = false. -/
theorem claim_C4_witness :
    (uAcc1 ∈ [uAcc1] ∧ txApi404 uAcc1.id = .httpStatus 404) ∧
    ((mkAccountActivity 0 txApi404 uAcc1).hasActivity = false ∧
      mkAccountActivity 0 txApi404 uAcc1 ∈ getAllAccountsWithActivity 0 txApi404 [uAcc1] ∧
      (getAllAccountsWithActivity 0 txApi404 [uAcc1]).length = [uAcc1].length) :=
  ⟨⟨by decide, by decide⟩,
    claim_C4_notfound_is_inactive 0 txApi404 [uAcc1] uAcc1 (by decide) (by decide)⟩

/-- C10: enrichment returns a list of the same length, in the same
order, whose records agree with the corresponding input records on all
nine non-enrichment fields (accountId, customerId, accountCreated,
lastActivity, hasActivity, daysSinceLastActivity, daysSinceCreation,
balance, status) — in every run, successful or not. -/
theorem claim_C10_enrichment_frame (load : Except String Mapping)
    (getC : String → CustomerFetchOutcome) (accounts : List AccountActivity) :
    (enhanceAccountsWithAddressMapping load getC accounts).length = accounts.length ∧
    List.Forall₂ coreEq accounts (enhanceAccountsWithAddressMapping load getC accounts) := by
  have h := enhance_forall₂ load getC accounts
  exact ⟨h.length_eq.symm, h⟩

/-- C5 counterexample: with a rate-limited (429) transaction lookup for
account u1, getAllAccountsWithActivity does not abort and no failure
propagates: it returns a full record list in which u1 merely has
hasActivity = false, contradicting the claim that a 429 on the
transaction lookup propagates as a hard failure and aborts the batch. -/
theorem claim_C5_counterexample :
    getAllAccountsWithActivity 86400000 txApiMix [uAcc1, uAcc2] =
      [{ accountId := "u1", customerId := "c1", customerName := "Account u1"
         customerEmail := none, customerAddress := none, companyName := none
         companyId := none, accountCreated := 0, lastActivity := none
         hasActivity := false, daysSinceLastActivity := 0, daysSinceCreation := 1
         balance := 10, status := AccountStatus.Open },
       { accountId := "u2", customerId := "c2", customerName := "Account u2"
         customerEmail := none, customerAddress := none, companyName := none
         companyId := none, accountCreated := 0, lastActivity := some 43200000
         hasActivity := true, daysSinceLastActivity := 0, daysSinceCreation := 1
         balance := 20, status := AccountStatus.Open }] := by
  decide

/-- C5 (amended): every transaction-lookup error for a single account,
including a rate-limit (429) response, is caught inside
getAccountTransactions, which returns an empty transaction list; the
account still yields a record (with hasActivity = false), processing
continues with the other accounts, and the batch is never aborted by a
transaction-lookup error. -/
theorem claim_C5_amended_429_swallowed (now : Int) (txApi : String → TxFetchOutcome)
    (accounts : List UnitAccount) (a : UnitAccount) (ha : a ∈ accounts)
    (h429 : txApi a.id = .httpStatus 429) :
    (mkAccountActivity now txApi a).hasActivity = false ∧
    mkAccountActivity now txApi a ∈ getAllAccountsWithActivity now txApi accounts ∧
    (getAllAccountsWithActivity now txApi accounts).length = accounts.length := by
  refine ⟨?_, ?_, ?_⟩
  · simp [mkAccountActivity, getAccountTransactions, h429]
  · exact List.mem_map_of_mem _ ha
  · exact List.length_map accounts _

/-- Witness for the amended C5 at a concrete input: account u1 hits a
429 and both accounts still come back, u1 with hasActivity = false. -/
theorem claim_C5_witness :
    (uAcc1 ∈ [uAcc1, uAcc2] ∧ txApiMix uAcc1.id = .httpStatus 429) ∧
    ((mkAccountActivity 86400000 txApiMix uAcc1).hasActivity = false ∧
      mkAccountActivity 86400000 txApiMix uAcc1 ∈
        getAllAccountsWithActivity 86400000 txApiMix [uAcc1, uAcc2] ∧
      (getAllAccountsWithActivity 86400000 txApiMix [uAcc1, uAcc2]).length =
        [uAcc1, uAcc2].length) :=
  ⟨⟨by decide, by decide⟩,
    claim_C5_amended_429_swallowed 86400000 txApiMix [uAcc1, uAcc2] uAcc1
      (by decide) (by decide)⟩

theorem getAccountsLoop_capstep (fetch : Nat → List UnitAccount) (limit : Nat)
    (off : Nat) (acc : List UnitAccount)
    (h1 : ¬ (fetch off).length < limit) (h2 : 50000 < (acc ++ fetch off).length)
    (fuel : Nat) :
    getAccountsLoop fetch limit (fuel + 1) off acc = some (acc ++ fetch off, [off]) := by
  simp only [getAccountsLoop]
  rw [if_neg h1, if_pos h2]

/-- C6 counterexample: with page size 50001 and a full first page, the
pagination loop returns 50001 accounts — more than the 50000 cap —
contradicting the claim that the returned list never contains more than
50000 accounts (the code stops only once the total strictly exceeds the
cap, after having pushed the whole page). -/
theorem claim_C6_counterexample :
    (getAccounts fetchBig 50001 0).map (fun p => p.1.length) = some 50001 ∧
    50000 < 50001 := by
  constructor
  · have hlen : (fetchBig 0).length = 50001 := by
      rw [fetchBig]
      exact List.length_replicate 50001 uAcc1
    have h1 : ¬ (fetchBig 0).length < 50001 := by omega
    have h2 : 50000 < (([] : List UnitAccount) ++ fetchBig 0).length := by
      rw [List.nil_append]
      omega
    have hstep := getAccountsLoop_capstep fetchBig 50001 0 [] h1 h2 50000
    show (getAccountsLoop fetchBig 50001 50001 0 []).map (fun p => p.1.length) = _
    rw [show (50001 : Nat) = 50000 + 1 by norm_num, hstep]
    simp only [Option.map_some', List.nil_append, hlen]
  · norm_num

/-- C6 (amended): for every page oracle with positive page size (pages
never exceeding the requested size), the paginated fetch terminates, it
never requests a further page after a short one (every requested offset
except the last returned a full page), and the returned list contains at
most 50000 + pageSize accounts: the 50000 cap is enforced only after the
page that first brings the total strictly above it has been pushed. -/
theorem claim_C6_amended_pagination (fetch : Nat → List UnitAccount) (limit : Nat)
    (hl : 1 ≤ limit) (hF : ∀ o, (fetch o).length ≤ limit) :
    ∃ res offs, getAccounts fetch limit 0 = some (res, offs) ∧
      res.length ≤ 50000 + limit ∧
      ∀ o ∈ offs.dropLast, limit ≤ (fetch o).length := by
  have ht := getAccountsLoop_total fetch limit hl 50001 0 [] (by simp) (by simp)
  obtain ⟨p, hp⟩ := Option.isSome_iff_exists.mp ht
  obtain ⟨res, offs⟩ := p
  refine ⟨res, offs, hp, ?_, ?_⟩
  · exact getAccountsLoop_bound fetch limit hF 50001 0 [] res offs (by simp) hp
  · exact getAccountsLoop_fullpages fetch limit 50001 0 [] res offs hp

/-- Witness for the amended C6 at a concrete input: an empty upstream
with page size 1 terminates within the bound. -/
theorem claim_C6_witness :
    (1 ≤ 1 ∧ ∀ o, (fetchEmpty o).length ≤ 1) ∧
    (∃ res offs, getAccounts fetchEmpty 1 0 = some (res, offs) ∧
      res.length ≤ 50000 + 1 ∧
      ∀ o ∈ offs.dropLast, 1 ≤ (fetchEmpty o).length) :=
  ⟨⟨le_refl 1, fun o => by simp [fetchEmpty]⟩,
    claim_C6_amended_pagination fetchEmpty 1 (le_refl 1) (fun o => by simp [fetchEmpty])⟩

/-- C7 counterexample: the resolver computes day counts with
differenceInDays (whole elapsed days, truncated), not the calendar-day
difference: an account created one hour before a UTC midnight, analysed
one hour after that midnight, has daysSinceCreation = 0 while the
calendar-day difference is 1. -/
theorem claim_C7_counterexample :
    (mkAccountActivity 90000000 txApiNone uLate).daysSinceCreation ≠
      differenceInCalendarDays 90000000 uLate.createdAt := by
  decide

/-- C7 (amended): every resolver record satisfies: lastActivity is
present iff hasActivity; daysSinceLastActivity equals the whole elapsed
days (differenceInDays, truncated toward zero — not the calendar-day
difference) between now and the most recent transaction when activity
exists and 0 otherwise; daysSinceCreation equals the whole elapsed days
since creation; and both day counts are non-negative provided the
timestamps do not lie in the future. -/
theorem claim_C7_amended_activity_fields (now : Int) (txApi : String → TxFetchOutcome)
    (account : UnitAccount) (hc : account.createdAt ≤ now)
    (ht : ∀ t ∈ getAccountTransactions txApi account.id, t.createdAt ≤ now) :
    ((mkAccountActivity now txApi account).lastActivity.isSome =
      (mkAccountActivity now txApi account).hasActivity) ∧
    (mkAccountActivity now txApi account).daysSinceCreation =
      differenceInDays now account.createdAt ∧
    (∀ t rest, getAccountTransactions txApi account.id = t :: rest →
      (mkAccountActivity now txApi account).hasActivity = true ∧
      (mkAccountActivity now txApi account).lastActivity = some t.createdAt ∧
      (mkAccountActivity now txApi account).daysSinceLastActivity =
        differenceInDays now t.createdAt) ∧
    (getAccountTransactions txApi account.id = [] →
      (mkAccountActivity now txApi account).hasActivity = false ∧
      (mkAccountActivity now txApi account).daysSinceLastActivity = 0) ∧
    0 ≤ (mkAccountActivity now txApi account).daysSinceCreation ∧
    0 ≤ (mkAccountActivity now txApi account).daysSinceLastActivity := by
  have hdpos : (0 : Int) < dayMs := by norm_num [dayMs]
  cases htx : getAccountTransactions txApi account.id with
  | nil =>
    refine ⟨?_, ?_, ?_, ?_, ?_, ?_⟩
    · simp [mkAccountActivity, htx]
    · simp [mkAccountActivity, htx]
    · intro t rest hcons
      exact absurd hcons (by simp)
    · intro _
      simp [mkAccountActivity, htx]
    · simp only [mkAccountActivity, htx, differenceInDays]
      exact Int.tdiv_nonneg (by omega) (le_of_lt hdpos)
    · simp [mkAccountActivity, htx]
  | cons t rest =>
    have htn : t.createdAt ≤ now := ht t (by rw [htx]; exact List.mem_cons_self t rest)
    refine ⟨?_, ?_, ?_, ?_, ?_, ?_⟩
    · simp [mkAccountActivity, htx]
    · simp [mkAccountActivity, htx]
    · intro u us hcons
      obtain ⟨rfl, rfl⟩ := List.cons.inj hcons
      refine ⟨by simp [mkAccountActivity, htx], by simp [mkAccountActivity, htx],
        by simp [mkAccountActivity, htx]⟩
    · intro hnil
      exact absurd hnil (by simp)
    · simp only [mkAccountActivity, htx, differenceInDays]
      exact Int.tdiv_nonneg (by omega) (le_of_lt hdpos)
    · simp only [mkAccountActivity, htx, differenceInDays]
      exact Int.tdiv_nonneg (by omega) (le_of_lt hdpos)

/-- Witness for the amended C7 at a concrete input: one account created
at time 0 with one transaction one day old, analysed at time two days. -/
theorem claim_C7_witness :
    (uAcc1.createdAt ≤ 172800000 ∧
      ∀ t ∈ getAccountTransactions txApiOne uAcc1.id, t.createdAt ≤ 172800000) ∧
    (((mkAccountActivity 172800000 txApiOne uAcc1).lastActivity.isSome =
        (mkAccountActivity 172800000 txApiOne uAcc1).hasActivity) ∧
      (mkAccountActivity 172800000 txApiOne uAcc1).daysSinceCreation =
        differenceInDays 172800000 uAcc1.createdAt ∧
      (∀ t rest, getAccountTransactions txApiOne uAcc1.id = t :: rest →
        (mkAccountActivity 172800000 txApiOne uAcc1).hasActivity = true ∧
        (mkAccountActivity 172800000 txApiOne uAcc1).lastActivity = some t.createdAt ∧
        (mkAccountActivity 172800000 txApiOne uAcc1).daysSinceLastActivity =
          differenceInDays 172800000 t.createdAt) ∧
      (getAccountTransactions txApiOne uAcc1.id = [] →
        (mkAccountActivity 172800000 txApiOne uAcc1).hasActivity = false ∧
        (mkAccountActivity 172800000 txApiOne uAcc1).daysSinceLastActivity = 0) ∧
      0 ≤ (mkAccountActivity 172800000 txApiOne uAcc1).daysSinceCreation ∧
      0 ≤ (mkAccountActivity 172800000 txApiOne uAcc1).daysSinceLastActivity) :=
  ⟨⟨by decide, by decide⟩,
    claim_C7_amended_activity_fields 172800000 txApiOne uAcc1 (by decide) (by decide)⟩

/-- C8 counterexample: permission (403) responses do not count toward
the failure budget: after 25 accounts whose customer lookup returns 403,
enrichment is still enabled and the 26th account is still enriched (its
customerEmail becomes the real customer email), contradicting the claim
that permission errors are tallied and reaching 25 of them disables
enrichment for the remaining accounts. -/
theorem claim_C8_counterexample :
    ((enhanceAccountsWithAddressMapping (.ok mEmpty) cApi8
        (List.replicate 25 aPerm ++ [aGood])).getLast?).map
        (fun a => a.customerEmail) = some (some "a@b.co") ∧
    aGood.customerEmail = none := by
  constructor
  · decide
  · decide

/-- C8 (amended): per-account enrichment errors that throw (rate-limit,
other HTTP statuses, timeouts, unknown errors — as distinguished from
404 and 403 responses, which return null and do not count) are tallied,
and once the failure budget MAX_FAILURES = 25 has been reached while
processing a prefix of the batch, enrichment is disabled for the whole
remainder: the records enriched before that point are kept as produced,
every remaining record passes through unchanged, the circuit-breaker
state stops changing, and the stage still returns a full-length list. -/
theorem claim_C8_amended_circuit_breaker (m : Mapping)
    (getC : String → CustomerFetchOutcome) (pre post : List AccountActivity)
    (h : MAX_FAILURES ≤ (enhanceLoop m getC ⟨0, true⟩ pre).1.failures) :
    enhanceAccountsWithAddressMapping (.ok m) getC (pre ++ post) =
      (enhanceLoop m getC ⟨0, true⟩ pre).2 ++ post ∧
    ((enhanceLoop m getC ⟨0, true⟩ (pre ++ post)).2).length =
      pre.length + post.length ∧
    (∀ st a, getCustomer getC a.customerId = .ok none →
      enhanceStep m getC st a = (st, a)) ∧
    (∀ st a e, st.enabled = true → st.failures < MAX_FAILURES →
      getCustomer getC a.customerId = .error e →
      (enhanceStep m getC st a).1.failures = st.failures + 1 ∧
        (enhanceStep m getC st a).2 = a) := by
  have h0 : stOk ⟨0, true⟩ := by
    intro hf
    exact absurd hf (by norm_num [MAX_FAILURES])
  have hdis : (enhanceLoop m getC ⟨0, true⟩ pre).1.enabled = false :=
    enhanceLoop_stOk m getC pre ⟨0, true⟩ h0 h
  have hpost : enhanceLoop m getC (enhanceLoop m getC ⟨0, true⟩ pre).1 post =
      ((enhanceLoop m getC ⟨0, true⟩ pre).1, post) :=
    enhanceLoop_disabled m getC post _ hdis
  have happ := enhanceLoop_append m getC pre post ⟨0, true⟩
  have hfull : enhanceLoop m getC ⟨0, true⟩ (pre ++ post) =
      ((enhanceLoop m getC ⟨0, true⟩ pre).1,
        (enhanceLoop m getC ⟨0, true⟩ pre).2 ++ post) := by
    rw [happ, hpost]
  have hne : ¬ (pre ++ post).length = 0 := by
    intro h0len
    have hpre : pre = [] := by
      cases pre with
      | nil => rfl
      | cons x xs => simp at h0len
    rw [hpre] at h
    simp only [enhanceLoop] at h
    exact absurd h (by norm_num [MAX_FAILURES])
  refine ⟨?_, ?_, ?_, ?_⟩
  · simp only [enhanceAccountsWithAddressMapping, if_neg hne]
    rw [hfull]
  · rw [hfull]
    simp [enhanceLoop_length]
  · intro st a hnull
    exact enhanceStep_null m getC st a hnull
  · intro st a e h1 h2 h3
    exact enhanceStep_failure m getC st a e h1 h2 h3

/-- Witness for the amended C8 at a concrete input: 25 accounts whose
customer lookups return 500 errors exhaust the budget, and one further
account passes through unchanged while the stage still returns the whole
batch. -/
theorem claim_C8_witness :
    MAX_FAILURES ≤ (enhanceLoop mEmpty cApi8 ⟨0, true⟩ (List.replicate 25 aFail)).1.failures ∧
    (enhanceAccountsWithAddressMapping (.ok mEmpty) cApi8
        (List.replicate 25 aFail ++ [aGood]) =
      (enhanceLoop mEmpty cApi8 ⟨0, true⟩ (List.replicate 25 aFail)).2 ++ [aGood] ∧
    ((enhanceLoop mEmpty cApi8 ⟨0, true⟩ (List.replicate 25 aFail ++ [aGood])).2).length =
      (List.replicate 25 aFail).length + [aGood].length ∧
    (∀ st a, getCustomer cApi8 a.customerId = .ok none →
      enhanceStep mEmpty cApi8 st a = (st, a)) ∧
    (∀ st a e, st.enabled = true → st.failures < MAX_FAILURES →
      getCustomer cApi8 a.customerId = .error e →
      (enhanceStep mEmpty cApi8 st a).1.failures = st.failures + 1 ∧
        (enhanceStep mEmpty cApi8 st a).2 = a)) :=
  ⟨by decide,
    claim_C8_amended_circuit_breaker mEmpty cApi8 (List.replicate 25 aFail) [aGood]
      (by decide)⟩

/-- C9 counterexample: on a systemic failure of the analysis,
checkDormantAccounts does not raise an error to its caller: it catches
the failure and returns a plain result object with success = false, the
message prefixed with Check failed, and zero counts. -/
theorem claim_C9_counterexample :
    checkDormantAccounts true 3 "Wednesday" (.error "boom") sendOk =
      { success := false, message := "Check failed: boom"
        communicationNeeded := 0, closureNeeded := 0 } := by
  decide

/-- C9 (amended): on a run that is manual or on a weekday, a systemic
failure makes checkDormantAccounts return (not raise) a failure result
with success = false, message prefixed Check failed and zero counts —
distinguishable via the success flag and message — while zero dormant
accounts yield a success result with zero counts, and an automated run
on a non-weekday yields a success result with zero counts as well, the
two success cases agreeing on every field except the message. -/
theorem claim_C9_amended_result_shape (isManual : Bool) (dayOfWeek : Nat)
    (dayName : String) (sendAlert : DormancyAlert → Except String Unit) (e : String)
    (hrun : isManual = true ∨ isWeekday dayOfWeek = true) :
    checkDormantAccounts isManual dayOfWeek dayName (.error e) sendAlert =
      { success := false, message := "Check failed: " ++ e
        communicationNeeded := 0, closureNeeded := 0 } ∧
    checkDormantAccounts isManual dayOfWeek dayName (.ok ([], [])) sendAlert =
      { success := true
        message := "Check completed successfully. Found 0 accounts needing communication, 0 needing closure."
        communicationNeeded := 0, closureNeeded := 0 } ∧
    (∀ d2 n2 dm2 s2, isWeekday d2 = false →
      checkDormantAccounts false d2 n2 dm2 s2 =
        { success := true
          message := "Skipping automated dormancy check - today is " ++ n2 ++ " (weekend)"
          communicationNeeded := 0, closureNeeded := 0 }) ∧
    ("Skipping automated dormancy check - today is Sunday (weekend)" ≠
      "Check completed successfully. Found 0 accounts needing communication, 0 needing closure.") := by
  have hcond : ¬ (isManual = false ∧ isWeekday dayOfWeek = false) := by
    rcases hrun with h | h <;> simp [h]
  refine ⟨?_, ?_, ?_, ?_⟩
  · simp only [checkDormantAccounts, if_neg hcond]
    rfl
  · simp only [checkDormantAccounts, if_neg hcond]
    rfl
  · intro d2 n2 dm2 s2 hd
    simp [checkDormantAccounts, hd]
  · decide

/-- Witness for the amended C9 at a concrete input: a manual run on a
Wednesday. -/
theorem claim_C9_witness :
    (true = true ∨ isWeekday 3 = true) ∧
    (checkDormantAccounts true 3 "Wednesday" (.error "down") sendOk =
      { success := false, message := "Check failed: " ++ "down"
        communicationNeeded := 0, closureNeeded := 0 } ∧
    checkDormantAccounts true 3 "Wednesday" (.ok ([], [])) sendOk =
      { success := true
        message := "Check completed successfully. Found 0 accounts needing communication, 0 needing closure."
        communicationNeeded := 0, closureNeeded := 0 } ∧
    (∀ d2 n2 dm2 s2, isWeekday d2 = false →
      checkDormantAccounts false d2 n2 dm2 s2 =
        { success := true
          message := "Skipping automated dormancy check - today is " ++ n2 ++ " (weekend)"
          communicationNeeded := 0, closureNeeded := 0 }) ∧
    ("Skipping automated dormancy check - today is Sunday (weekend)" ≠
      "Check completed successfully. Found 0 accounts needing communication, 0 needing closure.")) :=
  ⟨Or.inl rfl,
    claim_C9_amended_result_shape true 3 "Wednesday" sendOk "down" (Or.inl rfl)⟩

end AccountChecker
